import Mathlib

/-!
# Verification of the ReadWrite workload engine

A shallow embedding of `fdbserver/workloads/ReadWrite.actor.cpp`: the
metrics-window predicate, the hot-key selection logic, the triangular ramp
waveform, the transaction type choice, and the per-worker attempt/retry loop,
together with theorems checking the natural-language specification against it.

Machine doubles are modelled by exact rationals; the two uniform random draws
feeding `getRandomKey` and the transaction-type draw are passed as explicit
parameters, and probabilistic statements are phrased either over Lebesgue
measure on the unit interval (for the continuous `random01` draw) or as the
exact finite mixture law of the integer draws.
-/

namespace ReadWrite

/-- C++ `(int)` / `(int64_t)` conversion from a floating value: truncation
toward zero. -/
def cppTrunc (q : ℚ) : ℤ := if q < 0 then ⌈q⌉ else ⌊q⌋

/-- The configuration fields of `ReadWriteWorkload` used by the claims,
with the option defaults from the constructor (lines 131-213). -/
structure WorkloadConfig where
  readsPerTransactionA : ℕ
  writesPerTransactionA : ℕ
  readsPerTransactionB : ℕ
  writesPerTransactionB : ℕ
  extraReadConflictRangesPerTransaction : ℕ
  extraWriteConflictRangesPerTransaction : ℕ
  alpha : ℚ
  testDuration : ℚ
  rampSweepCount : ℕ
  hotKeyFraction : ℚ
  hotTrafficFraction : ℚ
deriving DecidableEq

/-- The defaults taken by `getOption` in the constructor:
`readsPerTransactionA=10`, `writesPerTransactionA=0`, `readsPerTransactionB=1`,
`writesPerTransactionB=9`, `alpha=0.1`, `testDuration=10`, `rampSweepCount=1`,
`hotKeyFraction=0`, `hotTrafficFraction=0`, extra conflict ranges `0`. -/
def defaultConfig : WorkloadConfig where
  readsPerTransactionA := 10
  writesPerTransactionA := 0
  readsPerTransactionB := 1
  writesPerTransactionB := 9
  extraReadConflictRangesPerTransaction := 0
  extraWriteConflictRangesPerTransaction := 0
  alpha := 1/10
  testDuration := 10
  rampSweepCount := 1
  hotKeyFraction := 0
  hotTrafficFraction := 0

/-- The `ASSERT`s guarding the hot-key block (lines 207-208):
`hotKeyFraction >= 0 && hotTrafficFraction <= 1` and
`hotKeyFraction <= hotTrafficFraction`. -/
def constructionAsserts (hotKeyFraction hotTrafficFraction : ℚ) : Prop :=
  0 ≤ hotKeyFraction ∧ hotTrafficFraction ≤ 1 ∧ hotKeyFraction ≤ hotTrafficFraction

instance (hkf htf : ℚ) : Decidable (constructionAsserts hkf htf) := by
  unfold constructionAsserts; infer_instance

/-- Line 212: `forceHotProbability = (hotTrafficFraction-hotKeyFraction) / (1-hotKeyFraction)`. -/
def forceHotProbability (hotKeyFraction hotTrafficFraction : ℚ) : ℚ :=
  (hotTrafficFraction - hotKeyFraction) / (1 - hotKeyFraction)

/-- The hot-branch remap of line 501:
`randomInt64(0, nodeCount*hotKeyFraction) / hotKeyFraction`, the division of an
integer by a fraction followed by the implicit conversion back to `int64_t`
(truncation; the argument is nonnegative, so this is the floor). -/
def hotKeyRemap (hotKeyFraction : ℚ) (j : ℤ) : ℤ := ⌊(j : ℚ) / hotKeyFraction⌋

/-- The guard of line 500: `forceHotProbability && random01() < forceHotProbability`.
A `double` is truthy iff it is nonzero. -/
def takesHotBranch (fhp u : ℚ) : Bool := decide (fhp ≠ 0 ∧ u < fhp)

/-- Lines 499-504, with the three random draws made explicit: `u` is the
`random01()` draw, `j` the hot draw `randomInt64(0, nodeCount*hotKeyFraction)`,
`k` the cold draw `randomInt64(0, nodeCount)`. -/
def getRandomKey (fhp hkf : ℚ) (u : ℚ) (j k : ℤ) : ℤ :=
  if fhp ≠ 0 ∧ u < fhp then hotKeyRemap hkf j else k

/-- Size of the hot draw's range: `nodeCount*hotKeyFraction` as a `double`,
implicitly converted to the integer upper bound of `randomInt64`. -/
def hotDomainSize (hkf : ℚ) (nodeCount : ℕ) : ℕ := (⌊(nodeCount : ℚ) * hkf⌋).toNat

/-- The exact law of `getRandomKey` under its uniform draws: with probability
`fhp` the result is `hotKeyRemap hkf j` for `j` uniform on
`[0, hotDomainSize)`, otherwise `k` uniform on `[0, nodeCount)`.  Returns the
probability that the returned index satisfies `P`. -/
def keyProb (fhp hkf : ℚ) (nodeCount : ℕ) (P : ℤ → Bool) : ℚ :=
  let h := hotDomainSize hkf nodeCount
  fhp * (((Finset.range h).filter (fun j : ℕ => P (hotKeyRemap hkf (j : ℤ)) = true)).card : ℚ) / h
    + (1 - fhp) * (((Finset.range nodeCount).filter (fun k : ℕ => P (k : ℤ) = true)).card : ℚ) / nodeCount

/-- Line 541: `aTransaction = g_random->random01() > alpha` (with
`rampTransactionType` disabled the threshold is the configured static alpha).
Stated generically so that it can be evaluated on `ℚ` and measured on `ℝ`. -/
def chooseA {α : Type} [LT α] (alphaThreshold u : α) : Prop := alphaThreshold < u

instance (a u : ℚ) : Decidable (chooseA a u) := by unfold chooseA; infer_instance

/-- Lines 546-549: per-iteration transaction shape derived from the chosen
type; extra conflict ranges are zeroed when the type has no writes
(`writes ? extraReadConflictRangesPerTransaction : 0`). -/
structure TxnShape where
  reads : ℕ
  writes : ℕ
  extraReadConflictRanges : ℕ
  extraWriteConflictRanges : ℕ
deriving DecidableEq

/-- BUILD step of the worker loop (lines 546-549). -/
def buildShape (cfg : WorkloadConfig) (aTransaction : Bool) : TxnShape :=
  let reads := if aTransaction then cfg.readsPerTransactionA else cfg.readsPerTransactionB
  let writes := if aTransaction then cfg.writesPerTransactionA else cfg.writesPerTransactionB
  { reads := reads
    writes := writes
    extraReadConflictRanges :=
      if writes ≠ 0 then cfg.extraReadConflictRangesPerTransaction else 0
    extraWriteConflictRanges :=
      if writes ≠ 0 then cfg.extraWriteConflictRangesPerTransaction else 0 }

/-- Lines 506-513: the triangular ramp waveform.  `elapsed` is
`now() - startTime`; `currentSweep` is the C++ `(int)` truncation and the
branch condition is the truthiness of `currentSweep % 2`. -/
def sweepAlpha (testDuration : ℚ) (rampSweepCount : ℕ) (elapsed : ℚ) : ℚ :=
  let sweepDuration := testDuration / rampSweepCount
  let numSweeps := elapsed / sweepDuration
  let currentSweep := cppTrunc numSweeps
  let alpha := numSweeps - (currentSweep : ℚ)
  if currentSweep % 2 ≠ 0 then 1 - alpha else alpha

/-- The metrics window fields of the workload (`clientBegin`, `metricsStart`,
`metricsDuration`), holding their effective (post-construction) values. -/
structure MetricsWindow where
  clientBegin : ℚ
  metricsStart : ℚ
  metricsDuration : ℚ
deriving DecidableEq

/-- Lines 494-497: `timeSinceStart >= metricsStart && timeSinceStart <
metricsStart + metricsDuration` where `timeSinceStart = checkTime - clientBegin`. -/
def shouldRecord (w : MetricsWindow) (checkTime : ℚ) : Bool :=
  let timeSinceStart := checkTime - w.clientBegin
  decide (w.metricsStart ≤ timeSinceStart ∧
    timeSinceStart < w.metricsStart + w.metricsDuration)

/-- One attempt of the retry loop (lines 579-639), described by the wall-clock
durations consumed by each suspension point and by whether the corresponding
`wait` raises an error: `getReadVersion`, the reads, `commit`, and the
`tr.onError(e)` recovery wait taken when the attempt fails. -/
structure Attempt where
  grvDur : ℚ
  grvErr : Bool
  readDur : ℚ
  readErr : Bool
  commitDur : ℚ
  commitErr : Bool
  onErrorDur : ℚ
deriving DecidableEq

/-- The shared aggregates touched by one transaction of the worker loop:
the `retries` counter, the latency reservoirs (as chronological sample lists),
the A/B success counters, and counts of the operations issued against the
transaction (`set`, `addReadConflictRange`, `addWriteConflictRange`,
`commit`). -/
structure Stats where
  retries : ℕ
  grvSamples : List ℚ
  fullReadSamples : List ℚ
  commitSamples : List ℚ
  latencySamples : List ℚ
  aTransactions : ℕ
  bTransactions : ℕ
  setOps : ℕ
  readConflictOps : ℕ
  writeConflictOps : ℕ
  commitAttempts : ℕ
deriving DecidableEq

/-- All-zero aggregates at the start of one transaction. -/
def Stats.init : Stats := ⟨0, [], [], [], [], 0, 0, 0, 0, 0, 0⟩

/-- Lines 636-637: `if (self->shouldRecord()) ++self->retries;`, evaluated
after the `tr.onError(e)` wait returns. -/
def recordRetry (w : MetricsWindow) (t : ℚ) (s : Stats) : Stats :=
  if shouldRecord w t then { s with retries := s.retries + 1 } else s

/-- The retry loop of lines 579-639 as a clock-passing interpreter.  `t` is the
current value of `now()`; each attempt advances it by the durations of the
waits it reaches.  A failing wait transfers control to the catch block, which
waits `onErrorDur` and increments the retry counter (when recording) before the
next attempt; `GRVLatencies`, `fullReadLatencies` and `commitLatencies` samples
are added right after the corresponding wait succeeds, guarded by
`shouldRecord()` at that moment.  When the chosen type has no writes the loop
breaks right after the reads (line 600-601) without touching `set`, conflict
ranges or `commit`.  The script is the finite list of attempt behaviours the
store exhibits; `none` means the script ended before an attempt succeeded. -/
def attemptLoop (w : MetricsWindow) (writes extraRead extraWrite : ℕ) :
    List Attempt → ℚ → Stats → Option (ℚ × Stats)
  | [], _, _ => none
  | a :: rest, t, s =>
    let tGrv := t + a.grvDur
    if a.grvErr then
      attemptLoop w writes extraRead extraWrite rest (tGrv + a.onErrorDur)
        (recordRetry w (tGrv + a.onErrorDur) s)
    else
      let s1 := if shouldRecord w tGrv then
        { s with grvSamples := s.grvSamples ++ [a.grvDur] } else s
      let tRead := tGrv + a.readDur
      if a.readErr then
        attemptLoop w writes extraRead extraWrite rest (tRead + a.onErrorDur)
          (recordRetry w (tRead + a.onErrorDur) s1)
      else
        let s2 := if shouldRecord w tRead then
          { s1 with fullReadSamples := s1.fullReadSamples ++ [a.readDur] } else s1
        if writes = 0 then
          some (tRead, s2)
        else
          let s3 := { s2 with
            setOps := s2.setOps + writes
            readConflictOps := s2.readConflictOps + extraRead
            writeConflictOps := s2.writeConflictOps + extraWrite
            commitAttempts := s2.commitAttempts + 1 }
          let tCommit := tRead + a.commitDur
          if a.commitErr then
            attemptLoop w writes extraRead extraWrite rest (tCommit + a.onErrorDur)
              (recordRetry w (tCommit + a.onErrorDur) s3)
          else
            let s4 := if shouldRecord w tCommit then
              { s3 with commitSamples := s3.commitSamples ++ [a.commitDur] } else s3
            some (tCommit, s4)

/-- One executed iteration of the worker loop from `tstart` (line 540) through
the retry loop to the RECORD step (lines 644-657): on loop exit the total
transaction latency is `now() - tstart`, and when `shouldRecord()` holds at
that moment the A or B counter is incremented and the latency is sampled. -/
def runTransaction (w : MetricsWindow) (aTransaction : Bool)
    (writes extraRead extraWrite : ℕ) (script : List Attempt) (tstart : ℚ) :
    Option (ℚ × Stats) :=
  match attemptLoop w writes extraRead extraWrite script tstart Stats.init with
  | none => none
  | some (tEnd, s) =>
    let transactionLatency := tEnd - tstart
    if shouldRecord w tEnd then
      some (tEnd,
        { s with
          aTransactions := s.aTransactions + (if aTransaction then 1 else 0)
          bTransactions := s.bTransactions + (if aTransaction then 0 else 1)
          latencySamples := s.latencySamples ++ [transactionLatency] })
    else some (tEnd, s)

/-- Whether an attempt raises an error before the loop breaks (commit errors
only count when the transaction commits, i.e. has writes). -/
def attemptFails (writes : ℕ) (a : Attempt) : Bool :=
  a.grvErr || a.readErr || (decide (writes ≠ 0) && a.commitErr)

/-- Wall-clock time consumed by a failing attempt, including its
`tr.onError(e)` recovery wait. -/
def failElapsed (a : Attempt) : ℚ :=
  if a.grvErr then a.grvDur + a.onErrorDur
  else if a.readErr then a.grvDur + a.readDur + a.onErrorDur
  else a.grvDur + a.readDur + a.commitDur + a.onErrorDur

/-- Wall-clock time consumed by the successful final attempt. -/
def succElapsed (writes : ℕ) (a : Attempt) : ℚ :=
  a.grvDur + a.readDur + (if writes ≠ 0 then a.commitDur else 0)

/-! ## The inconsistent-reads cached read version (lines 34-58) -/

/-- `invalidVersion` from the client library: the sentinel `-1`. -/
def invalidVersion : ℤ := -1

/-- The state of the file-static `Future<Version> nextRV`: never assigned yet
(`!isValid()`), assigned with the `getNextRV` actor still running
(`!isReady()`), or assigned and completed with a version. -/
inductive RVSlot
  | invalid
  | pending
  | ready (v : ℤ)
deriving DecidableEq

/-- The two file-static variables `nextRV` and `lastRV` (lines 35-36), plus
instrumentation counting how many `getNextRV` actors were ever started and how
many have returned (so that "at most one refresh outstanding" is a fact about
spawns, not a definition). -/
structure RVState where
  slot : RVSlot
  lastRV : ℤ
  started : ℕ
  finished : ℕ
deriving DecidableEq

/-- Process start: `nextRV` invalid, `lastRV = invalidVersion`. -/
def initRVState : RVState := { slot := .invalid, lastRV := invalidVersion, started := 0, finished := 0 }

/-- What a caller of `getInconsistentReadVersion` receives: the freshly started
refresh future (it must wait on it), or the cached `lastRV` immediately. -/
inductive RVResult
  | fromFuture
  | cached (v : ℤ)
deriving DecidableEq

/-- Lines 49-58: if `nextRV` is invalid or ready, harvest its value into
`lastRV` (when valid) and start a new `getNextRV` actor; then return `lastRV`
if it has ever been set, else the in-flight future. -/
def getInconsistentReadVersion (s : RVState) : RVState × RVResult :=
  let s1 : RVState :=
    match s.slot with
    | .invalid => { s with slot := .pending, started := s.started + 1 }
    | .ready v => { s with slot := .pending, lastRV := v, started := s.started + 1 }
    | .pending => s
  if s1.lastRV = invalidVersion then (s1, .fromFuture) else (s1, .cached s1.lastRV)

/-- The in-flight `getNextRV` actor returns version `v`, making `nextRV`
ready.  A no-op when no refresh is running. -/
def completeRV (v : ℤ) (s : RVState) : RVState :=
  match s.slot with
  | .pending => { s with slot := .ready v, finished := s.finished + 1 }
  | _ => s

/-- Interleaving events: some worker calls `getInconsistentReadVersion`, or
the running refresh completes with a version. -/
inductive RVEvent
  | call
  | complete (v : ℤ)
deriving DecidableEq

/-- One event of the interleaving. -/
def rvStep (s : RVState) : RVEvent → RVState
  | .call => (getInconsistentReadVersion s).1
  | .complete v => completeRV v s

/-- The state after a sequence of events from process start. -/
def rvRun (es : List RVEvent) : RVState := es.foldl rvStep initRVState

/-- Number of `getNextRV` actors currently running. -/
def outstanding (s : RVState) : ℕ := s.started - s.finished

/-! ## Helper lemmas -/

lemma cppTrunc_of_nonneg {q : ℚ} (h : 0 ≤ q) : cppTrunc q = ⌊q⌋ := by
  simp [cppTrunc, not_lt.mpr h]

lemma sweepAlpha_eq_fract (testDuration : ℚ) (rampSweepCount : ℕ) (elapsed : ℚ)
    (h : 0 ≤ elapsed / (testDuration / (rampSweepCount : ℚ))) :
    sweepAlpha testDuration rampSweepCount elapsed =
      if ⌊elapsed / (testDuration / (rampSweepCount : ℚ))⌋ % 2 ≠ 0 then
        1 - Int.fract (elapsed / (testDuration / (rampSweepCount : ℚ)))
      else Int.fract (elapsed / (testDuration / (rampSweepCount : ℚ))) := by
  simp only [sweepAlpha, cppTrunc_of_nonneg h, Int.fract]

/-! ## C6: the metrics recording window -/

/-- C6: with effective `metricsStart = 1`, `metricsDuration = 2` (and
`clientBegin = 0`), `shouldRecord` is false at elapsed 0.5 and 3.5 and true at
2.0; in general it holds iff
`metricsStart ≤ t - clientBegin < metricsStart + metricsDuration`. -/
theorem C6_theorem :
    shouldRecord ⟨0, 1, 2⟩ (1/2) = false ∧
    shouldRecord ⟨0, 1, 2⟩ (7/2) = false ∧
    shouldRecord ⟨0, 1, 2⟩ 2 = true ∧
    ∀ (w : MetricsWindow) (t : ℚ),
      shouldRecord w t = true ↔
        (w.metricsStart ≤ t - w.clientBegin ∧
          t - w.clientBegin < w.metricsStart + w.metricsDuration) := by
  refine ⟨by norm_num [shouldRecord], by norm_num [shouldRecord],
    by norm_num [shouldRecord], ?_⟩
  intro w t
  simp [shouldRecord]

/-! ## C8: bounds of the ramp waveform -/

/-- C8: for every elapsed time `t ≥ 0` and every `rampSweepCount ≥ 1` (with a
positive test duration) the ramp alpha lies in `[0, 1]`, and at elapsed time 0
it equals 0. -/
theorem C8_theorem (testDuration : ℚ) (rampSweepCount : ℕ) (elapsed : ℚ)
    (htd : 0 < testDuration) (hsc : 1 ≤ rampSweepCount) (ht : 0 ≤ elapsed) :
    0 ≤ sweepAlpha testDuration rampSweepCount elapsed ∧
    sweepAlpha testDuration rampSweepCount elapsed ≤ 1 ∧
    sweepAlpha testDuration rampSweepCount 0 = 0 := by
  have hscQ : (0:ℚ) < (rampSweepCount : ℚ) := by exact_mod_cast hsc
  have hD : 0 < testDuration / (rampSweepCount : ℚ) := div_pos htd hscQ
  have hp : 0 ≤ elapsed / (testDuration / (rampSweepCount : ℚ)) := div_nonneg ht hD.le
  have h0 : (0:ℚ) ≤ 0 / (testDuration / (rampSweepCount : ℚ)) := by simp
  rw [sweepAlpha_eq_fract _ _ _ hp, sweepAlpha_eq_fract _ _ _ h0]
  have hf0 := Int.fract_nonneg (elapsed / (testDuration / (rampSweepCount : ℚ)))
  have hf1 := Int.fract_lt_one (elapsed / (testDuration / (rampSweepCount : ℚ)))
  refine ⟨?_, ?_, ?_⟩
  · split <;> linarith
  · split <;> linarith
  · norm_num

/-- Concrete instance of `C8_theorem` at `testDuration = 10`,
`rampSweepCount = 1`, `elapsed = 3`. -/
theorem C8_witness :
    (0:ℚ) < 10 ∧ 1 ≤ 1 ∧ (0:ℚ) ≤ 3 ∧
    (0 ≤ sweepAlpha 10 1 3 ∧ sweepAlpha 10 1 3 ≤ 1 ∧ sweepAlpha 10 1 0 = 0) :=
  ⟨by norm_num, le_refl 1, by norm_num,
    C8_theorem 10 1 3 (by norm_num) (le_refl 1) (by norm_num)⟩

/-! ## C4: shape and period of the ramp waveform -/

/-- C4 fails as stated: with `testDuration = 1` and `rampSweepCount = 1` the
alpha at `sweepDuration/2 = 1/2` is `1/2` (not close to 1), and the waveform is
not periodic with period `testDuration/rampSweepCount = 1`: it is 1 at time 1
but 0 at time 0. -/
theorem C4_counterexample :
    sweepAlpha 1 1 (1/2) = 1/2 ∧ sweepAlpha 1 1 (0 + 1) ≠ sweepAlpha 1 1 0 := by
  norm_num [sweepAlpha, cppTrunc]

/-- C4 amended: the waveform is periodic with period
`2 * testDuration / rampSweepCount` (twice the claimed period), and for
`rampSweepCount = 1` the alpha at `sweepDuration/2` equals `1/2`, the peak 1
being reached at `sweepDuration` itself. -/
theorem C4_theorem (testDuration : ℚ) (rampSweepCount : ℕ) (elapsed : ℚ)
    (htd : 0 < testDuration) (hsc : 1 ≤ rampSweepCount) (ht : 0 ≤ elapsed) :
    sweepAlpha testDuration rampSweepCount
        (elapsed + 2 * (testDuration / (rampSweepCount : ℚ))) =
      sweepAlpha testDuration rampSweepCount elapsed ∧
    sweepAlpha testDuration 1 (testDuration / 1 / 2) = 1/2 ∧
    sweepAlpha testDuration 1 (testDuration / 1) = 1 := by
  have htd0 : testDuration ≠ 0 := ne_of_gt htd
  have hscQ : (0:ℚ) < (rampSweepCount : ℚ) := by exact_mod_cast hsc
  have hD : 0 < testDuration / (rampSweepCount : ℚ) := div_pos htd hscQ
  have hp : 0 ≤ elapsed / (testDuration / (rampSweepCount : ℚ)) := div_nonneg ht hD.le
  have hp2 : 0 ≤ (elapsed + 2 * (testDuration / (rampSweepCount : ℚ))) /
      (testDuration / (rampSweepCount : ℚ)) := div_nonneg (by linarith) hD.le
  have hone : ((1:ℕ):ℚ) = 1 := by norm_num
  refine ⟨?_, ?_, ?_⟩
  · rw [sweepAlpha_eq_fract _ _ _ hp2, sweepAlpha_eq_fract _ _ _ hp]
    have key : (elapsed + 2 * (testDuration / (rampSweepCount : ℚ))) /
        (testDuration / (rampSweepCount : ℚ)) =
        elapsed / (testDuration / (rampSweepCount : ℚ)) + ((2:ℤ):ℚ) := by
      push_cast
      field_simp
    rw [key, Int.floor_add_int, Int.fract_add_int]
    have hmod : (⌊elapsed / (testDuration / (rampSweepCount : ℚ))⌋ + 2) % 2 =
        ⌊elapsed / (testDuration / (rampSweepCount : ℚ))⌋ % 2 := by omega
    rw [hmod]
  · have e : testDuration / 1 / 2 / (testDuration / ((1:ℕ):ℚ)) = 1/2 := by
      rw [hone]
      field_simp
      try ring
    rw [sweepAlpha_eq_fract _ _ _ (by rw [e]; norm_num), e]
    norm_num [Int.fract]
  · have e : testDuration / 1 / (testDuration / ((1:ℕ):ℚ)) = 1 := by
      rw [hone]
      field_simp
      try ring
    rw [sweepAlpha_eq_fract _ _ _ (by rw [e]; norm_num), e]
    norm_num [Int.fract]

/-- Concrete instance of `C4_theorem` at `testDuration = 10`,
`rampSweepCount = 2`, `elapsed = 3`. -/
theorem C4_witness :
    (0:ℚ) < 10 ∧ 1 ≤ 2 ∧ (0:ℚ) ≤ 3 ∧
    (sweepAlpha 10 2 (3 + 2 * (10 / ((2:ℕ):ℚ))) = sweepAlpha 10 2 3 ∧
      sweepAlpha 10 1 (10 / 1 / 2) = 1/2 ∧ sweepAlpha 10 1 (10 / 1) = 1) :=
  ⟨by norm_num, by norm_num, by norm_num,
    C4_theorem 10 2 3 (by norm_num) (by norm_num) (by norm_num)⟩

/-! ## C3: disabling the hot-key logic -/

/-- C3 fails as stated: `hotKeyFraction = 0` with `hotTrafficFraction = 1/2`
passes the construction asserts, yet `forceHotProbability = 1/2 ≠ 0`, the guard
of line 500 is true for a draw `u = 1/4`, and `getRandomKey` then evaluates the
division by `hotKeyFraction = 0` instead of returning the uniform draw
(`7` here). -/
theorem C3_counterexample :
    constructionAsserts 0 (1/2) ∧
    forceHotProbability 0 (1/2) ≠ 0 ∧
    takesHotBranch (forceHotProbability 0 (1/2)) (1/4) = true ∧
    getRandomKey (forceHotProbability 0 (1/2)) 0 (1/4) 3 7 = 0 := by
  refine ⟨?_, ?_, ?_, ?_⟩
  · norm_num [constructionAsserts]
  · norm_num [forceHotProbability]
  · norm_num [takesHotBranch, forceHotProbability]
  · norm_num [getRandomKey, forceHotProbability, hotKeyRemap]

/-- C3 amended: the hot branch is controlled by `forceHotProbability`, not by
`hotKeyFraction`: whenever `hotTrafficFraction = hotKeyFraction` (in
particular in the default configuration, where both are 0)
`forceHotProbability` is 0, the guard of line 500 is false for every draw, and
`getRandomKey` returns the uniform cold draw. -/
theorem C3_theorem (hkf htf u : ℚ) (j k : ℤ) (h : htf = hkf) :
    forceHotProbability hkf htf = 0 ∧
    takesHotBranch (forceHotProbability hkf htf) u = false ∧
    getRandomKey (forceHotProbability hkf htf) hkf u j k = k := by
  have hf : forceHotProbability hkf htf = 0 := by
    rw [forceHotProbability, h, sub_self, zero_div]
  refine ⟨hf, ?_, ?_⟩
  · simp [takesHotBranch, hf]
  · simp [getRandomKey, hf]

/-- Concrete instance of `C3_theorem` at the default configuration
`hotKeyFraction = hotTrafficFraction = 0`. -/
theorem C3_witness :
    (0:ℚ) = 0 ∧
    (forceHotProbability 0 0 = 0 ∧
      takesHotBranch (forceHotProbability 0 0) (1/3) = false ∧
      getRandomKey (forceHotProbability 0 0) 0 (1/3) 5 7 = 7) :=
  ⟨rfl, C3_theorem 0 0 (1/3) 5 7 rfl⟩

/-! ## C7: the cached inconsistent read version -/

/-- Inductive invariant tying the slot state to the actor accounting: a
refresh actor is running exactly when `nextRV` is valid but not ready. -/
def rvInv (s : RVState) : Prop :=
  (s.slot = RVSlot.pending → s.started = s.finished + 1) ∧
  (s.slot ≠ RVSlot.pending → s.started = s.finished)

lemma rvInv_init : rvInv initRVState := by
  constructor <;> intro h <;> simp_all [initRVState]

lemma getIRV_fst (s : RVState) : (getInconsistentReadVersion s).1 =
    match s.slot with
    | RVSlot.invalid => { s with slot := RVSlot.pending, started := s.started + 1 }
    | RVSlot.ready v =>
      { s with slot := RVSlot.pending, lastRV := v, started := s.started + 1 }
    | RVSlot.pending => s := by
  rw [getInconsistentReadVersion]
  split <;> rfl

lemma rvInv_step {s : RVState} (hs : rvInv s) (e : RVEvent) : rvInv (rvStep s e) := by
  obtain ⟨h1, h2⟩ := hs
  cases e with
  | call =>
    have hstep : rvStep s RVEvent.call = (getInconsistentReadVersion s).1 := rfl
    rw [hstep, getIRV_fst]
    cases hslot : s.slot with
    | invalid =>
      have h := h2 (by rw [hslot]; intro hc; cases hc)
      constructor <;> intro hq <;> simp_all
    | pending =>
      exact ⟨fun _ => h1 hslot, fun hq => absurd hslot hq⟩
    | ready v =>
      have h := h2 (by rw [hslot]; intro hc; cases hc)
      constructor <;> intro hq <;> simp_all
  | complete v =>
    have hstep : rvStep s (RVEvent.complete v) = completeRV v s := rfl
    rw [hstep, completeRV]
    cases hslot : s.slot with
    | invalid =>
      exact ⟨fun hq => absurd hq (by rw [hslot]; simp), fun _ => h2 (by rw [hslot]; simp)⟩
    | pending =>
      have h := h1 hslot
      constructor <;> intro hq <;> simp_all
    | ready w =>
      exact ⟨fun hq => absurd hq (by rw [hslot]; simp), fun _ => h2 (by rw [hslot]; simp)⟩

lemma rvInv_foldl (es : List RVEvent) : ∀ s, rvInv s → rvInv (es.foldl rvStep s) := by
  induction es with
  | nil => exact fun s hs => hs
  | cons e rest ih => exact fun s hs => ih _ (rvInv_step hs e)

lemma rvInv_run (es : List RVEvent) : rvInv (rvRun es) :=
  rvInv_foldl es initRVState rvInv_init

/-- C7: along every interleaving of worker calls and refresh completions, at
most one `getNextRV` refresh is outstanding; and a caller arriving while a
refresh is outstanding, after at least one refresh value has been cached,
receives the previously cached (possibly stale) version immediately — the
state is unchanged (no new refresh) and the result is not the in-flight
future. -/
theorem C7_theorem :
    (∀ es : List RVEvent, outstanding (rvRun es) ≤ 1) ∧
    (∀ s : RVState, s.slot = RVSlot.pending → s.lastRV ≠ invalidVersion →
      getInconsistentReadVersion s = (s, RVResult.cached s.lastRV)) := by
  constructor
  · intro es
    obtain ⟨h1, h2⟩ := rvInv_run es
    unfold outstanding
    cases hslot : (rvRun es).slot with
    | pending => rw [h1 hslot]; omega
    | invalid =>
      rw [h2 (by rw [hslot]; intro hc; cases hc)]; omega
    | ready v =>
      rw [h2 (by rw [hslot]; intro hc; cases hc)]; omega
  · intro s hslot hlast
    simp [getInconsistentReadVersion, hslot, hlast]

/-- Concrete instance of `C7_theorem`: a trace with a call, a completed
refresh and two further calls, and a concrete pending state holding the cached
version 5. -/
theorem C7_witness :
    outstanding (rvRun [RVEvent.call, RVEvent.complete 5, RVEvent.call,
      RVEvent.call]) ≤ 1 ∧
    ((5:ℤ) ≠ invalidVersion ∧
      getInconsistentReadVersion ⟨RVSlot.pending, 5, 2, 1⟩ =
        (⟨RVSlot.pending, 5, 2, 1⟩, RVResult.cached 5)) :=
  ⟨C7_theorem.1 _, by decide, C7_theorem.2 ⟨RVSlot.pending, 5, 2, 1⟩ rfl (by decide)⟩

/-! ## C1: the A/B transaction-type mix -/

/-- C1 fails as stated: with the default `alpha = 0.1`, the probability (over
the uniform `random01()` draw) that the iteration chooses a type-A transaction
is not `0.1` — the comparison on line 541 is `random01() > alpha`, so type A is
the frequent branch. -/
theorem C1_counterexample :
    MeasureTheory.volume
        {u : ℝ | u ∈ Set.Ico (0:ℝ) 1 ∧ chooseA ((defaultConfig.alpha : ℚ) : ℝ) u} ≠
      ENNReal.ofReal (1/10) := by
  have hα : ((defaultConfig.alpha : ℚ) : ℝ) = 1/10 := by norm_num [defaultConfig]
  have hset : {u : ℝ | u ∈ Set.Ico (0:ℝ) 1 ∧ chooseA ((defaultConfig.alpha : ℚ) : ℝ) u} =
      Set.Ioo (1/10 : ℝ) 1 := by
    ext u
    simp only [Set.mem_setOf_eq, Set.mem_Ico, Set.mem_Ioo, chooseA, hα]
    constructor
    · rintro ⟨⟨h0, h1⟩, h2⟩
      exact ⟨h2, h1⟩
    · rintro ⟨h2, h1⟩
      exact ⟨⟨by linarith, h1⟩, h2⟩
  rw [hset, Real.volume_Ioo]
  intro h
  rw [ENNReal.ofReal_eq_ofReal_iff (by norm_num) (by norm_num)] at h
  norm_num at h

/-- C1 amended: with the default configuration
(`readsPerTransactionA = 10, writesPerTransactionA = 0,
readsPerTransactionB = 1, writesPerTransactionB = 9, alpha = 0.1`), the
probability that an executed iteration chooses the read-only type-A shape
(10 reads, 0 writes) is `0.9 = 1 - alpha`, and that it chooses the type-B
shape (1 read, 9 writes) is `0.1 = alpha`. -/
theorem C1_theorem :
    (buildShape defaultConfig true).reads = 10 ∧
    (buildShape defaultConfig true).writes = 0 ∧
    (buildShape defaultConfig false).reads = 1 ∧
    (buildShape defaultConfig false).writes = 9 ∧
    MeasureTheory.volume
        {u : ℝ | u ∈ Set.Ico (0:ℝ) 1 ∧ chooseA ((defaultConfig.alpha : ℚ) : ℝ) u} =
      ENNReal.ofReal (9/10) ∧
    MeasureTheory.volume
        {u : ℝ | u ∈ Set.Ico (0:ℝ) 1 ∧ ¬ chooseA ((defaultConfig.alpha : ℚ) : ℝ) u} =
      ENNReal.ofReal (1/10) := by
  have hα : ((defaultConfig.alpha : ℚ) : ℝ) = 1/10 := by norm_num [defaultConfig]
  refine ⟨rfl, rfl, rfl, rfl, ?_, ?_⟩
  · have hset : {u : ℝ | u ∈ Set.Ico (0:ℝ) 1 ∧ chooseA ((defaultConfig.alpha : ℚ) : ℝ) u} =
        Set.Ioo (1/10 : ℝ) 1 := by
      ext u
      simp only [Set.mem_setOf_eq, Set.mem_Ico, Set.mem_Ioo, chooseA, hα]
      constructor
      · rintro ⟨⟨h0, h1⟩, h2⟩
        exact ⟨h2, h1⟩
      · rintro ⟨h2, h1⟩
        exact ⟨⟨by linarith, h1⟩, h2⟩
    rw [hset, Real.volume_Ioo]
    norm_num
  · have hset : {u : ℝ | u ∈ Set.Ico (0:ℝ) 1 ∧ ¬ chooseA ((defaultConfig.alpha : ℚ) : ℝ) u} =
        Set.Icc (0:ℝ) (1/10) := by
      ext u
      simp only [Set.mem_setOf_eq, Set.mem_Ico, Set.mem_Icc, chooseA, hα, not_lt]
      constructor
      · rintro ⟨⟨h0, h1⟩, h2⟩
        exact ⟨h0, h2⟩
      · rintro ⟨h0, h2⟩
        exact ⟨⟨h0, by linarith⟩, h2⟩
    rw [hset, Real.volume_Icc]
    norm_num

/-! ## C2: the hot-key traffic fraction -/

lemma hotKeyRemap_tenth (j : ℤ) : hotKeyRemap (1/10) j = 10 * j := by
  unfold hotKeyRemap
  have h : (j:ℚ) / (1/10) = ((10 * j : ℤ) : ℚ) := by
    push_cast
    ring
  rw [h, Int.floor_intCast]

/-- C2 fails as stated: at `nodeCount = 100` (a multiple of 10), with
`hotKeyFraction = 0.1` and `hotTrafficFraction = 0.5`, the probability that
`getRandomKey` lands in the prefix `[0, nodeCount*0.1) = [0, 10)` is `1/10`,
not `0.5` — the hot branch spreads its keys over the whole keyspace. -/
theorem C2_counterexample :
    keyProb (forceHotProbability (1/10) (1/2)) (1/10) 100
        (fun k => decide (0 ≤ k ∧ k < 10)) ≠ 1/2 := by
  have hfhp : forceHotProbability (1/10) (1/2) = 4/9 := by
    norm_num [forceHotProbability]
  have hdom : hotDomainSize (1/10) 100 = 10 := by
    norm_num [hotDomainSize]
    rfl
  have hhot : ((Finset.range 10).filter
      (fun j : ℕ => decide (0 ≤ hotKeyRemap (1/10) (j:ℤ) ∧ hotKeyRemap (1/10) (j:ℤ) < 10) = true)).card
      = 1 := by
    simp only [hotKeyRemap_tenth]
    decide
  have hcold : ((Finset.range 100).filter
      (fun k : ℕ => decide (0 ≤ (k:ℤ) ∧ (k:ℤ) < 10) = true)).card = 10 := by
    decide
  rw [keyProb, hdom, hfhp]
  rw [hhot, hcold]
  norm_num

/-- C2 amended: the hot slice of the keyspace is the image of the hot remap —
the indices divisible by 10, a `hotKeyFraction = 0.1` fraction of the
keyspace — and for every `nodeCount = 10*m` that slice receives exactly
`hotTrafficFraction = 0.5` of the traffic. -/
theorem C2_theorem (m : ℕ) (hm : 0 < m) :
    keyProb (forceHotProbability (1/10) (1/2)) (1/10) (10*m)
        (fun k => decide (k % 10 = 0)) = 1/2 := by
  have hfhp : forceHotProbability (1/10) (1/2) = 4/9 := by
    norm_num [forceHotProbability]
  have hdom : hotDomainSize (1/10) (10*m) = m := by
    unfold hotDomainSize
    have h : ((10*m : ℕ) : ℚ) * (1/10) = ((m:ℤ) : ℚ) := by
      push_cast
      ring
    rw [h, Int.floor_intCast, Int.toNat_natCast]
  have hhot : ((Finset.range m).filter
      (fun j : ℕ => decide (hotKeyRemap (1/10) (j:ℤ) % 10 = 0) = true)) =
      Finset.range m := by
    apply Finset.filter_true_of_mem
    intro j _
    rw [hotKeyRemap_tenth]
    simp [Int.mul_emod_right]
  have hcold : ((Finset.range (10*m)).filter
      (fun k : ℕ => decide ((k:ℤ) % 10 = 0) = true)) =
      (Finset.range m).image (fun j => 10 * j) := by
    ext x
    simp only [Finset.mem_filter, Finset.mem_range, Finset.mem_image, decide_eq_true_eq]
    constructor
    · rintro ⟨hx, hmod⟩
      have hdvd : (10:ℤ) ∣ (x:ℤ) := Int.dvd_of_emod_eq_zero hmod
      have hdvdN : (10:ℕ) ∣ x := by exact_mod_cast hdvd
      obtain ⟨j, rfl⟩ := hdvdN
      exact ⟨j, by omega, rfl⟩
    · rintro ⟨j, hj, rfl⟩
      refine ⟨by omega, ?_⟩
      push_cast
      exact Int.mul_emod_right 10 (j:ℤ)
  have hcoldcard : ((Finset.range (10*m)).filter
      (fun k : ℕ => decide ((k:ℤ) % 10 = 0) = true)).card = m := by
    rw [hcold, Finset.card_image_of_injective _ (fun a b h => by omega)]
    exact Finset.card_range m
  rw [keyProb, hdom, hfhp, hhot, hcoldcard]
  have hm' : ((m:ℚ)) ≠ 0 := by exact_mod_cast hm.ne'
  rw [Finset.card_range]
  push_cast
  field_simp
  ring

/-- Concrete instance of `C2_theorem` at `m = 3` (`nodeCount = 30`). -/
theorem C2_witness :
    0 < 3 ∧
    keyProb (forceHotProbability (1/10) (1/2)) (1/10) (10*3)
        (fun k => decide (k % 10 = 0)) = 1/2 :=
  ⟨by decide, C2_theorem 3 (by decide)⟩

/-! ## Field-preservation lemmas for the attempt loop -/

/-- Fields never touched inside the retry loop (only the RECORD step after it
touches them). -/
def sameRecordFields (s' s : Stats) : Prop :=
  s'.latencySamples = s.latencySamples ∧ s'.aTransactions = s.aTransactions ∧
  s'.bTransactions = s.bTransactions

/-- Fields never touched by a retry-loop step that carries no writes: the
write-side operation counts and samples, plus the RECORD-step fields. -/
def sameTxnFields (s' s : Stats) : Prop :=
  s'.setOps = s.setOps ∧ s'.readConflictOps = s.readConflictOps ∧
  s'.writeConflictOps = s.writeConflictOps ∧ s'.commitAttempts = s.commitAttempts ∧
  s'.commitSamples = s.commitSamples ∧ sameRecordFields s' s

lemma sameRecordFields_refl (s : Stats) : sameRecordFields s s := ⟨rfl, rfl, rfl⟩

lemma sameRecordFields_trans {a b c : Stats} (h1 : sameRecordFields a b)
    (h2 : sameRecordFields b c) : sameRecordFields a c :=
  ⟨h1.1.trans h2.1, h1.2.1.trans h2.2.1, h1.2.2.trans h2.2.2⟩

lemma sameTxnFields_refl (s : Stats) : sameTxnFields s s :=
  ⟨rfl, rfl, rfl, rfl, rfl, sameRecordFields_refl s⟩

lemma sameTxnFields_trans {a b c : Stats} (h1 : sameTxnFields a b)
    (h2 : sameTxnFields b c) : sameTxnFields a c :=
  ⟨h1.1.trans h2.1, h1.2.1.trans h2.2.1, h1.2.2.1.trans h2.2.2.1,
    h1.2.2.2.1.trans h2.2.2.2.1, h1.2.2.2.2.1.trans h2.2.2.2.2.1,
    sameRecordFields_trans h1.2.2.2.2.2 h2.2.2.2.2.2⟩

lemma recordRetry_sameTxnFields (w : MetricsWindow) (t : ℚ) (s : Stats) :
    sameTxnFields (recordRetry w t s) s := by
  rw [recordRetry]
  split
  · exact ⟨rfl, rfl, rfl, rfl, rfl, rfl, rfl, rfl⟩
  · exact sameTxnFields_refl s

lemma ifGrvSample_sameTxnFields (c : Prop) [Decidable c] (s : Stats) (d : ℚ) :
    sameTxnFields (if c then { s with grvSamples := s.grvSamples ++ [d] } else s) s := by
  split
  · exact ⟨rfl, rfl, rfl, rfl, rfl, rfl, rfl, rfl⟩
  · exact sameTxnFields_refl s

lemma ifFullReadSample_sameTxnFields (c : Prop) [Decidable c] (s : Stats) (d : ℚ) :
    sameTxnFields
      (if c then { s with fullReadSamples := s.fullReadSamples ++ [d] } else s) s := by
  split
  · exact ⟨rfl, rfl, rfl, rfl, rfl, rfl, rfl, rfl⟩
  · exact sameTxnFields_refl s

lemma ifCommitSample_sameRecordFields (c : Prop) [Decidable c] (s : Stats) (d : ℚ) :
    sameRecordFields
      (if c then { s with commitSamples := s.commitSamples ++ [d] } else s) s := by
  split
  · exact ⟨rfl, rfl, rfl⟩
  · exact sameRecordFields_refl s

/-- In a transaction whose chosen type has no writes, the retry loop leaves
every write-side aggregate untouched. -/
lemma attemptLoop_writes0 (w : MetricsWindow) (er ew : ℕ) (script : List Attempt) :
    ∀ (t : ℚ) (s : Stats) (r : ℚ × Stats),
      attemptLoop w 0 er ew script t s = some r → sameTxnFields r.2 s := by
  induction script with
  | nil =>
    intro t s r h
    simp [attemptLoop] at h
  | cons a rest ih =>
    intro t s r h
    simp only [attemptLoop] at h
    by_cases hg : a.grvErr = true
    · rw [if_pos hg] at h
      exact sameTxnFields_trans (ih _ _ _ h) (recordRetry_sameTxnFields _ _ _)
    · rw [if_neg hg] at h
      by_cases hr : a.readErr = true
      · rw [if_pos hr] at h
        exact sameTxnFields_trans (ih _ _ _ h)
          (sameTxnFields_trans (recordRetry_sameTxnFields _ _ _)
            (ifGrvSample_sameTxnFields _ _ _))
      · rw [if_neg hr, if_true] at h
        rw [Option.some.injEq] at h
        subst h
        exact sameTxnFields_trans (ifFullReadSample_sameTxnFields _ _ _)
          (ifGrvSample_sameTxnFields _ _ _)

/-- C9: when the chosen transaction type has zero configured writes, the BUILD
step zeroes both extra conflict-range counts, and the executed transaction
issues no `set`, registers no conflict range, never attempts a commit and adds
no commit-latency sample — the attempt ends after the reads. -/
theorem C9_theorem (cfg : WorkloadConfig) (aTxn : Bool)
    (h : (if aTxn then cfg.writesPerTransactionA else cfg.writesPerTransactionB) = 0)
    (w : MetricsWindow) (script : List Attempt) (tstart tEnd : ℚ) (s : Stats)
    (hrun : runTransaction w aTxn (buildShape cfg aTxn).writes
      (buildShape cfg aTxn).extraReadConflictRanges
      (buildShape cfg aTxn).extraWriteConflictRanges script tstart = some (tEnd, s)) :
    (buildShape cfg aTxn).writes = 0 ∧
    (buildShape cfg aTxn).extraReadConflictRanges = 0 ∧
    (buildShape cfg aTxn).extraWriteConflictRanges = 0 ∧
    s.setOps = 0 ∧ s.readConflictOps = 0 ∧ s.writeConflictOps = 0 ∧
    s.commitAttempts = 0 ∧ s.commitSamples = [] := by
  have hw : (buildShape cfg aTxn).writes = 0 := by
    simp [buildShape, h]
  have her : (buildShape cfg aTxn).extraReadConflictRanges = 0 := by
    simp [buildShape, h]
  have hew : (buildShape cfg aTxn).extraWriteConflictRanges = 0 := by
    simp [buildShape, h]
  refine ⟨hw, her, hew, ?_⟩
  rw [hw, her, hew, runTransaction] at hrun
  cases hAL : attemptLoop w 0 0 0 script tstart Stats.init with
  | none => rw [hAL] at hrun; cases hrun
  | some r =>
    obtain ⟨tE, s₀⟩ := r
    have hfields := attemptLoop_writes0 w 0 0 script tstart Stats.init (tE, s₀) hAL
    obtain ⟨e1, e2, e3, e4, e5, _⟩ := hfields
    rw [hAL] at hrun
    dsimp only at hrun
    split at hrun <;>
      · rw [Option.some.injEq, Prod.mk.injEq] at hrun
        obtain ⟨-, hs⟩ := hrun
        subst hs
        exact ⟨e1, e2, e3, e4, e5⟩

/-- Concrete instance of `C9_theorem`: the default type-A shape (0 writes),
one clean attempt of one time unit per wait. -/
theorem C9_witness :
    (if true then defaultConfig.writesPerTransactionA
      else defaultConfig.writesPerTransactionB) = 0 ∧
    runTransaction ⟨0, 0, 100⟩ true (buildShape defaultConfig true).writes
      (buildShape defaultConfig true).extraReadConflictRanges
      (buildShape defaultConfig true).extraWriteConflictRanges
      [⟨1, false, 1, false, 0, false, 0⟩] 0 =
      some (2, ⟨0, [1], [1], [], [2], 1, 0, 0, 0, 0, 0⟩) ∧
    ((buildShape defaultConfig true).writes = 0 ∧
      (buildShape defaultConfig true).extraReadConflictRanges = 0 ∧
      (buildShape defaultConfig true).extraWriteConflictRanges = 0 ∧
      (⟨0, [1], [1], [], [2], 1, 0, 0, 0, 0, 0⟩ : Stats).setOps = 0 ∧
      (⟨0, [1], [1], [], [2], 1, 0, 0, 0, 0, 0⟩ : Stats).readConflictOps = 0 ∧
      (⟨0, [1], [1], [], [2], 1, 0, 0, 0, 0, 0⟩ : Stats).writeConflictOps = 0 ∧
      (⟨0, [1], [1], [], [2], 1, 0, 0, 0, 0, 0⟩ : Stats).commitAttempts = 0 ∧
      (⟨0, [1], [1], [], [2], 1, 0, 0, 0, 0, 0⟩ : Stats).commitSamples = []) :=
  ⟨rfl,
    by norm_num [runTransaction, attemptLoop, shouldRecord, Stats.init, buildShape,
      defaultConfig],
    C9_theorem defaultConfig true rfl ⟨0, 0, 100⟩ [⟨1, false, 1, false, 0, false, 0⟩] 0 2 _
      (by norm_num [runTransaction, attemptLoop, shouldRecord, Stats.init, buildShape,
        defaultConfig])⟩

/-! ## C10: total transaction latency accounts for failed attempts -/

lemma attemptFails_grvErr {writes : ℕ} {a : Attempt}
    (ha : attemptFails writes a = false) : a.grvErr = false := by
  cases hb : a.grvErr
  · rfl
  · rw [attemptFails, hb] at ha
    simp at ha

lemma attemptFails_readErr {writes : ℕ} {a : Attempt}
    (ha : attemptFails writes a = false) : a.readErr = false := by
  cases hb : a.readErr
  · rfl
  · rw [attemptFails, hb] at ha
    simp at ha

lemma attemptFails_commitErr {writes : ℕ} {a : Attempt}
    (ha : attemptFails writes a = false) (hw : writes ≠ 0) : a.commitErr = false := by
  cases hb : a.commitErr
  · rfl
  · rw [attemptFails, hb] at ha
    simp [hw] at ha

/-- A failing attempt hands control to the next attempt after exactly
`failElapsed` time, with the RECORD-step fields untouched. -/
lemma attemptLoop_fail_step (w : MetricsWindow) (writes er ew : ℕ) (b : Attempt)
    (rest : List Attempt) (t : ℚ) (s : Stats)
    (hb : attemptFails writes b = true) :
    ∃ s₁ : Stats, sameRecordFields s₁ s ∧
      attemptLoop w writes er ew (b :: rest) t s =
        attemptLoop w writes er ew rest (t + failElapsed b) s₁ := by
  by_cases hg : b.grvErr = true
  · refine ⟨recordRetry w (t + b.grvDur + b.onErrorDur) s, ?_, ?_⟩
    · exact (recordRetry_sameTxnFields _ _ _).2.2.2.2.2
    · rw [show failElapsed b = b.grvDur + b.onErrorDur from by rw [failElapsed, if_pos hg]]
      rw [show t + (b.grvDur + b.onErrorDur) = t + b.grvDur + b.onErrorDur from by ring]
      simp only [attemptLoop, hg]
      rfl
  · have hg' : b.grvErr = false := by
      cases hx : b.grvErr
      · rfl
      · exact absurd hx hg
    by_cases hr : b.readErr = true
    · refine ⟨recordRetry w (t + b.grvDur + b.readDur + b.onErrorDur)
        (if shouldRecord w (t + b.grvDur) = true then
          { s with grvSamples := s.grvSamples ++ [b.grvDur] } else s), ?_, ?_⟩
      · exact sameRecordFields_trans
          (recordRetry_sameTxnFields _ _ _).2.2.2.2.2
          (ifGrvSample_sameTxnFields _ _ _).2.2.2.2.2
      · rw [show failElapsed b = b.grvDur + b.readDur + b.onErrorDur from
          by rw [failElapsed, if_neg (by simp [hg']), if_pos hr]]
        rw [show t + (b.grvDur + b.readDur + b.onErrorDur) =
          t + b.grvDur + b.readDur + b.onErrorDur from by ring]
        simp only [attemptLoop, hg', hr]
        rfl
    · have hr' : b.readErr = false := by
        cases hx : b.readErr
        · rfl
        · exact absurd hx hr
      have hw : writes ≠ 0 := by
        intro hw0
        rw [attemptFails, hg', hr'] at hb
        simp [hw0] at hb
      have hc : b.commitErr = true := by
        cases hx : b.commitErr
        · rw [attemptFails, hg', hr', hx] at hb
          simp at hb
        · rfl
      refine ⟨recordRetry w (t + b.grvDur + b.readDur + b.commitDur + b.onErrorDur)
        (let s1 := if shouldRecord w (t + b.grvDur) = true then
            { s with grvSamples := s.grvSamples ++ [b.grvDur] } else s
          let s2 := if shouldRecord w (t + b.grvDur + b.readDur) = true then
            { s1 with fullReadSamples := s1.fullReadSamples ++ [b.readDur] } else s1
          { s2 with
            setOps := s2.setOps + writes
            readConflictOps := s2.readConflictOps + er
            writeConflictOps := s2.writeConflictOps + ew
            commitAttempts := s2.commitAttempts + 1 }), ?_, ?_⟩
      · refine sameRecordFields_trans (recordRetry_sameTxnFields _ _ _).2.2.2.2.2 ?_
        refine sameRecordFields_trans (⟨rfl, rfl, rfl⟩ : sameRecordFields _ _) ?_
        exact sameRecordFields_trans
          (ifFullReadSample_sameTxnFields _ _ _).2.2.2.2.2
          (ifGrvSample_sameTxnFields _ _ _).2.2.2.2.2
      · rw [show failElapsed b = b.grvDur + b.readDur + b.commitDur + b.onErrorDur from
          by rw [failElapsed, if_neg (by simp [hg']), if_neg (by simp [hr'])]]
        rw [show t + (b.grvDur + b.readDur + b.commitDur + b.onErrorDur) =
          t + b.grvDur + b.readDur + b.commitDur + b.onErrorDur from by ring]
        simp only [attemptLoop, hg', hr', hc, if_neg hw]
        rfl

/-- A non-failing attempt ends the retry loop after exactly `succElapsed`
time, with the RECORD-step fields untouched. -/
lemma attemptLoop_succ_step (w : MetricsWindow) (writes er ew : ℕ) (a : Attempt)
    (rest : List Attempt) (t : ℚ) (s : Stats)
    (ha : attemptFails writes a = false) :
    ∃ s' : Stats, sameRecordFields s' s ∧
      attemptLoop w writes er ew (a :: rest) t s =
        some (t + succElapsed writes a, s') := by
  have hg := attemptFails_grvErr ha
  have hr := attemptFails_readErr ha
  by_cases hw : writes = 0
  · refine ⟨(let s1 := if shouldRecord w (t + a.grvDur) = true then
        { s with grvSamples := s.grvSamples ++ [a.grvDur] } else s
      if shouldRecord w (t + a.grvDur + a.readDur) = true then
        { s1 with fullReadSamples := s1.fullReadSamples ++ [a.readDur] } else s1), ?_, ?_⟩
    · exact sameRecordFields_trans
        (ifFullReadSample_sameTxnFields _ _ _).2.2.2.2.2
        (ifGrvSample_sameTxnFields _ _ _).2.2.2.2.2
    · rw [show t + succElapsed writes a = t + a.grvDur + a.readDur from
        by rw [succElapsed, if_neg (by simp [hw])]; ring]
      simp only [attemptLoop, hg, hr, if_pos hw]
      rfl
  · have hc := attemptFails_commitErr ha hw
    refine ⟨(let s1 := if shouldRecord w (t + a.grvDur) = true then
        { s with grvSamples := s.grvSamples ++ [a.grvDur] } else s
      let s2 := if shouldRecord w (t + a.grvDur + a.readDur) = true then
        { s1 with fullReadSamples := s1.fullReadSamples ++ [a.readDur] } else s1
      let s3 := { s2 with
        setOps := s2.setOps + writes
        readConflictOps := s2.readConflictOps + er
        writeConflictOps := s2.writeConflictOps + ew
        commitAttempts := s2.commitAttempts + 1 }
      if shouldRecord w (t + a.grvDur + a.readDur + a.commitDur) = true then
        { s3 with commitSamples := s3.commitSamples ++ [a.commitDur] } else s3), ?_, ?_⟩
    · refine sameRecordFields_trans (ifCommitSample_sameRecordFields _ _ _) ?_
      refine sameRecordFields_trans (⟨rfl, rfl, rfl⟩ : sameRecordFields _ _) ?_
      exact sameRecordFields_trans
        (ifFullReadSample_sameTxnFields _ _ _).2.2.2.2.2
        (ifGrvSample_sameTxnFields _ _ _).2.2.2.2.2
    · rw [show t + succElapsed writes a = t + a.grvDur + a.readDur + a.commitDur from
        by rw [succElapsed, if_pos hw]; ring]
      simp only [attemptLoop, hg, hr, hc, if_neg hw]
      rfl

/-- The retry loop over failing attempts followed by one successful attempt
ends at the start time plus the sum of the failing attempts' elapsed times
(each including its `onError` wait) plus the successful attempt's elapsed
time. -/
lemma attemptLoop_time (w : MetricsWindow) (writes er ew : ℕ) (a : Attempt)
    (ha : attemptFails writes a = false) :
    ∀ (pre : List Attempt) (t : ℚ) (s : Stats),
      (∀ b ∈ pre, attemptFails writes b = true) →
      ∃ s' : Stats, sameRecordFields s' s ∧
        attemptLoop w writes er ew (pre ++ [a]) t s =
          some (t + ((pre.map failElapsed).sum + succElapsed writes a), s') := by
  intro pre
  induction pre with
  | nil =>
    intro t s _
    obtain ⟨s', hs', heq⟩ := attemptLoop_succ_step w writes er ew a [] t s ha
    refine ⟨s', hs', ?_⟩
    rw [List.nil_append, heq]
    simp
  | cons b pre ih =>
    intro t s hpre
    obtain ⟨s₁, hs₁, hstep⟩ := attemptLoop_fail_step w writes er ew b (pre ++ [a]) t s
      (hpre b (List.mem_cons_self b pre))
    obtain ⟨s', hs', heq⟩ := ih (t + failElapsed b) s₁
      (fun x hx => hpre x (List.mem_cons_of_mem b hx))
    refine ⟨s', sameRecordFields_trans hs' hs₁, ?_⟩
    have htime : t + ((List.map failElapsed (b :: pre)).sum + succElapsed writes a) =
        (t + failElapsed b) + ((List.map failElapsed pre).sum + succElapsed writes a) := by
      simp [List.sum_cons]
      ring
    rw [List.cons_append, hstep, heq, htime]

/-- C10: the total-latency sample of a successful transaction measures the
whole span from before the first attempt's read-version acquisition to the end
of the successful attempt: it is the sum of every failed attempt's elapsed
time — `onError` recovery waits included — plus the successful attempt's
elapsed time, not just the latter. -/
theorem C10_theorem (w : MetricsWindow) (aTxn : Bool) (writes er ew : ℕ)
    (pre : List Attempt) (a : Attempt) (tstart : ℚ)
    (hpre : ∀ b ∈ pre, attemptFails writes b = true)
    (ha : attemptFails writes a = false)
    (hrec : shouldRecord w
      (tstart + ((pre.map failElapsed).sum + succElapsed writes a)) = true) :
    ∃ s : Stats,
      runTransaction w aTxn writes er ew (pre ++ [a]) tstart =
        some (tstart + ((pre.map failElapsed).sum + succElapsed writes a), s) ∧
      s.latencySamples = [(pre.map failElapsed).sum + succElapsed writes a] := by
  obtain ⟨s', hs', heq⟩ := attemptLoop_time w writes er ew a ha pre tstart Stats.init hpre
  rw [runTransaction, heq]
  dsimp only
  rw [if_pos hrec]
  refine ⟨_, rfl, ?_⟩
  have hl : s'.latencySamples = [] := hs'.1
  simp only [hl, List.nil_append]
  rw [List.cons.injEq]
  exact ⟨by ring, rfl⟩

/-- Concrete instance of `C10_theorem`: one attempt failing at commit (total
elapsed 4, one unit of it the `onError` wait) followed by a successful attempt
(elapsed 3): the single total-latency sample is 7. -/
theorem C10_witness :
    (∀ b ∈ [(⟨1, false, 1, false, 1, true, 1⟩ : Attempt)], attemptFails 9 b = true) ∧
    attemptFails 9 ⟨1, false, 1, false, 1, false, 0⟩ = false ∧
    shouldRecord ⟨0, 0, 1000⟩
      (0 + (([(⟨1, false, 1, false, 1, true, 1⟩ : Attempt)].map failElapsed).sum +
        succElapsed 9 ⟨1, false, 1, false, 1, false, 0⟩)) = true ∧
    ∃ s : Stats,
      runTransaction ⟨0, 0, 1000⟩ false 9 0 0
        ([(⟨1, false, 1, false, 1, true, 1⟩ : Attempt)] ++
          [⟨1, false, 1, false, 1, false, 0⟩]) 0 =
        some (0 + (([(⟨1, false, 1, false, 1, true, 1⟩ : Attempt)].map failElapsed).sum +
          succElapsed 9 ⟨1, false, 1, false, 1, false, 0⟩), s) ∧
      s.latencySamples =
        [([(⟨1, false, 1, false, 1, true, 1⟩ : Attempt)].map failElapsed).sum +
          succElapsed 9 ⟨1, false, 1, false, 1, false, 0⟩] :=
  ⟨by decide, by decide,
    by norm_num [shouldRecord, failElapsed, succElapsed],
    C10_theorem ⟨0, 0, 1000⟩ false 9 0 0 [⟨1, false, 1, false, 1, true, 1⟩]
      ⟨1, false, 1, false, 1, false, 0⟩ 0 (by decide) (by decide)
      (by norm_num [shouldRecord, failElapsed, succElapsed])⟩

/-! ## C5: one retry, one success record, one commit sample -/

/-- C5: for a transaction with writes executed inside the recording window,
when the first attempt's commit raises a retryable error and the second
attempt commits: the retries counter is incremented exactly once, exactly one
success record is made (one A- or B-counter increment and one total-latency
sample), and exactly one commit-latency sample is added — the commit duration
of the successful attempt alone, timed from just before its commit call. -/
theorem C5_theorem (w : MetricsWindow) (aTxn : Bool) (writes er ew : ℕ)
    (a1 a2 : Attempt) (tstart : ℚ)
    (hw : writes ≠ 0)
    (h1g : a1.grvErr = false) (h1r : a1.readErr = false) (h1c : a1.commitErr = true)
    (h2g : a2.grvErr = false) (h2r : a2.readErr = false) (h2c : a2.commitErr = false)
    (hd1 : 0 ≤ a1.grvDur) (hd2 : 0 ≤ a1.readDur) (hd3 : 0 ≤ a1.commitDur)
    (hd4 : 0 ≤ a1.onErrorDur) (hd5 : 0 ≤ a2.grvDur) (hd6 : 0 ≤ a2.readDur)
    (hd7 : 0 ≤ a2.commitDur)
    (hlo : w.metricsStart ≤ tstart - w.clientBegin)
    (hhi : (tstart + a1.grvDur + a1.readDur + a1.commitDur + a1.onErrorDur
      + a2.grvDur + a2.readDur + a2.commitDur) - w.clientBegin
      < w.metricsStart + w.metricsDuration) :
    ∃ tEnd s,
      runTransaction w aTxn writes er ew [a1, a2] tstart = some (tEnd, s) ∧
      s.retries = 1 ∧
      s.commitSamples = [a2.commitDur] ∧
      s.aTransactions + s.bTransactions = 1 ∧
      s.latencySamples = [a1.grvDur + a1.readDur + a1.commitDur + a1.onErrorDur
        + a2.grvDur + a2.readDur + a2.commitDur] := by
  have hsr : ∀ t : ℚ, tstart ≤ t →
      t ≤ tstart + a1.grvDur + a1.readDur + a1.commitDur + a1.onErrorDur
        + a2.grvDur + a2.readDur + a2.commitDur →
      shouldRecord w t = true := by
    intro t hA hB
    simp only [shouldRecord, decide_eq_true_eq]
    constructor
    · linarith
    · linarith
  have hr1 : shouldRecord w (tstart + a1.grvDur) = true :=
    hsr _ (by linarith) (by linarith)
  have hr2 : shouldRecord w (tstart + a1.grvDur + a1.readDur) = true :=
    hsr _ (by linarith) (by linarith)
  have hr3 : shouldRecord w
      (tstart + a1.grvDur + a1.readDur + a1.commitDur + a1.onErrorDur) = true :=
    hsr _ (by linarith) (by linarith)
  have hr4 : shouldRecord w
      (tstart + a1.grvDur + a1.readDur + a1.commitDur + a1.onErrorDur
        + a2.grvDur) = true :=
    hsr _ (by linarith) (by linarith)
  have hr5 : shouldRecord w
      (tstart + a1.grvDur + a1.readDur + a1.commitDur + a1.onErrorDur + a2.grvDur
        + a2.readDur) = true :=
    hsr _ (by linarith) (by linarith)
  have hr6 : shouldRecord w
      (tstart + a1.grvDur + a1.readDur + a1.commitDur + a1.onErrorDur + a2.grvDur
        + a2.readDur + a2.commitDur) = true :=
    hsr _ (by linarith) (by linarith)
  simp only [runTransaction, attemptLoop, recordRetry, Stats.init,
    h1g, h1r, h1c, h2g, h2r, h2c, hr1, hr2, hr3, hr4, hr5, hr6,
    if_neg hw, if_true, eq_self_iff_true, Bool.false_eq_true, if_false]
  refine ⟨_, _, rfl, rfl, rfl, ?_, ?_⟩
  · cases aTxn <;> rfl
  · simp only [List.nil_append, List.cons.injEq, and_true]
    ring

/-- Concrete instance of `C5_theorem`: window `[0, 1000)`, each wait one time
unit, first commit failing, second succeeding. -/
theorem C5_witness :
    (9 ≠ 0) ∧
    (⟨1, false, 1, false, 1, true, 1⟩ : Attempt).grvErr = false ∧
    (⟨1, false, 1, false, 1, true, 1⟩ : Attempt).commitErr = true ∧
    (⟨1, false, 1, false, 1, false, 0⟩ : Attempt).commitErr = false ∧
    (⟨0, 0, 1000⟩ : MetricsWindow).metricsStart ≤ (0:ℚ) - (⟨0, 0, 1000⟩ : MetricsWindow).clientBegin ∧
    ∃ tEnd s,
      runTransaction ⟨0, 0, 1000⟩ false 9 2 3
        [⟨1, false, 1, false, 1, true, 1⟩, ⟨1, false, 1, false, 1, false, 0⟩] 0 =
        some (tEnd, s) ∧
      s.retries = 1 ∧
      s.commitSamples = [(⟨1, false, 1, false, 1, false, 0⟩ : Attempt).commitDur] ∧
      s.aTransactions + s.bTransactions = 1 ∧
      s.latencySamples = [(⟨1, false, 1, false, 1, true, 1⟩ : Attempt).grvDur
        + (⟨1, false, 1, false, 1, true, 1⟩ : Attempt).readDur
        + (⟨1, false, 1, false, 1, true, 1⟩ : Attempt).commitDur
        + (⟨1, false, 1, false, 1, true, 1⟩ : Attempt).onErrorDur
        + (⟨1, false, 1, false, 1, false, 0⟩ : Attempt).grvDur
        + (⟨1, false, 1, false, 1, false, 0⟩ : Attempt).readDur
        + (⟨1, false, 1, false, 1, false, 0⟩ : Attempt).commitDur] :=
  ⟨by decide, rfl, rfl, rfl, by norm_num,
    C5_theorem ⟨0, 0, 1000⟩ false 9 2 3
      ⟨1, false, 1, false, 1, true, 1⟩ ⟨1, false, 1, false, 1, false, 0⟩ 0
      (by decide) rfl rfl rfl rfl rfl rfl
      (by norm_num) (by norm_num) (by norm_num) (by norm_num) (by norm_num)
      (by norm_num) (by norm_num) (by norm_num) (by norm_num)⟩

end ReadWrite
